import Mathlib

/-!
A shallow embedding of the writer and extra-field machinery of the `rawzip`
crate (`src/extra_fields.rs`, `src/headers.rs`, `src/writer.rs`,
`src/reader_at.rs`), together with theorems settling the frozen claims about
those functions.

Modelling conventions:
* Byte buffers (`&[u8]`, `Vec<u8>`, `StackVec<u8, N>`) are `List Nat` whose
  elements are the byte values.  `StackVec` is a growable vector whose
  observable content is `as_slice`, so it is embedded as the list of its
  elements.
* Machine integers are `Nat` (or `Int` for `i64`); casts that can truncate
  are made explicit with `% 2 ^ w`.
* Fallible functions return `Except ZipError`.
* I/O sinks (`impl Write`) are modelled by returning the emitted bytes.
-/

namespace Rawzip

/-- Encoder `u16::to_le_bytes`: the two little-endian bytes of `n` (mod 2^16). -/
def le16 (n : Nat) : List Nat := [n % 256, n / 256 % 256]

/-- Encoder `u32::to_le_bytes`: the four little-endian bytes of `n` (mod 2^32). -/
def le32 (n : Nat) : List Nat :=
  [n % 256, n / 256 % 256, n / 2 ^ 16 % 256, n / 2 ^ 24 % 256]

/-- Encoder `u64::to_le_bytes`: the eight little-endian bytes of `n` (mod 2^64). -/
def le64 (n : Nat) : List Nat := le32 (n % 2 ^ 32) ++ le32 (n / 2 ^ 32)

/-- Modelled from the spec: `le_u16` of the crate's `utils` module (the file is
not under `src/`): decodes the first two bytes of a slice as a little-endian
`u16`. -/
def le_u16 (b : List Nat) : Nat := b.getD 0 0 + 256 * b.getD 1 0

/-- The only error kinds the embedded functions produce
(`ErrorKind::InvalidInput`, `ErrorKind::BufferTooSmall`, `ErrorKind::Eof`,
and I/O errors surfaced through `?`). -/
inductive ZipError where
  | invalidInput
  | bufferTooSmall
  | eofError
  | ioError
deriving DecidableEq

instance exceptDecEq {ε α : Type} [DecidableEq ε] [DecidableEq α] :
    DecidableEq (Except ε α) := fun x y =>
  match x, y with
  | .ok a, .ok b =>
    if h : a = b then isTrue (by simp [h]) else isFalse (by simp [h])
  | .ok _, .error _ => isFalse (by simp)
  | .error _, .ok _ => isFalse (by simp)
  | .error e, .error f =>
    if h : e = f then isTrue (by simp [h]) else isFalse (by simp [h])

/-- From `headers.rs`: `Header`, a bitmask over the two header locations. -/
structure Header where
  val : Nat
deriving DecidableEq

/-- Constant `Header::LOCAL = 0b01`. -/
def Header.LOCAL : Header := ⟨1⟩

/-- Constant `Header::CENTRAL = 0b10`. -/
def Header.CENTRAL : Header := ⟨2⟩

/-- Value of `Header::default() = LOCAL | CENTRAL`. -/
def Header.both : Header := ⟨3⟩

/-- Mirror of `Header::includes_local`. -/
def Header.includes_local (h : Header) : Bool := h.val &&& 1 ≠ 0

/-- Mirror of `Header::includes_central`. -/
def Header.includes_central (h : Header) : Bool := h.val &&& 2 ≠ 0

/-- Mirror of `Header::intersects`. -/
def Header.intersects (a b : Header) : Bool := a.val &&& b.val ≠ 0

/-- Mirror of the public `BitAnd` impl for `Header` (`self.0 & rhs.0`). -/
def Header.band (a b : Header) : Header := ⟨a.val &&& b.val⟩

/-- From `extra_fields.rs`: `ExtraFieldsContainer`.  `entries` records each added
field's location, `data_buffer` the concatenated TLV bytes, and the two sizes
the cached byte totals destined for each header. -/
structure ExtraFieldsContainer where
  entries : List Header
  data_buffer : List Nat
  local_size : Nat
  central_size : Nat
deriving DecidableEq

/-- Mirror of `ExtraFieldsContainer::new`. -/
def emptyContainer : ExtraFieldsContainer :=
  { entries := [], data_buffer := [], local_size := 0, central_size := 0 }

/-- Mirror of `ExtraFieldsContainer::add_field`.  The id, the data length (as `u16`) and
the data are appended to the shared buffer and the cached sizes are bumped for
every location the field targets; oversized fields are rejected up front. -/
def addField (c : ExtraFieldsContainer) (id : Nat) (data : List Nat)
    (location : Header) : Except ZipError ExtraFieldsContainer :=
  let size_delta := 4 + data.length
  let cur0 := if location.includes_local then c.local_size else 0
  let current_size := if location.includes_central then max c.central_size cur0 else cur0
  if 65535 < size_delta + current_size then
    .error .invalidInput
  else
    .ok { entries := c.entries ++ [location],
          data_buffer := c.data_buffer ++ le16 id ++ le16 data.length ++ data,
          local_size :=
            c.local_size + (if location.includes_local then size_delta else 0),
          central_size :=
            c.central_size + (if location.includes_central then size_delta else 0) }

/-- Mirror of `ExtraFields::next_data`: pops one TLV (header id, size, body) off the
front of the slice, provided at least four bytes remain and the declared size
fits; otherwise leaves the slice untouched and yields nothing. -/
def nextData (data : List Nat) : Option (List Nat × List Nat) :=
  if data.length < 4 then none
  else
    let size := le_u16 (data.drop 2)
    let total_field_len := size + 4
    if data.length < total_field_len then none
    else some (data.take total_field_len, data.drop total_field_len)

/-- One step of the `Iterator` impl for `ExtraFields`: the yielded item (if
any) paired with the iterator's slice after the step. -/
def extraFieldsStep (data : List Nat) : Option (Nat × List Nat) × List Nat :=
  match nextData data with
  | none => (none, data)
  | some (chunk, rest) => (some (le_u16 chunk, chunk.drop 4), rest)

/-- Mirror of `ExtraFieldsContainer::write_extra_fields_iter`: walk the recorded
locations alongside the TLVs in the shared buffer, emitting exactly the TLVs
whose location intersects the filter.  `none` models the `expect` panic when
the buffer holds fewer TLVs than there are entries (unreachable for containers
built by `add_field`). -/
def writeFieldsLoop (entries : List Header) (buf : List Nat) (filter : Header) :
    Option (List Nat) :=
  match entries with
  | [] => some []
  | e :: rest =>
    match nextData buf with
    | none => none
    | some (field, restBuf) =>
      (writeFieldsLoop rest restBuf filter).map fun tail =>
        (if e.intersects filter then field else []) ++ tail

/-- Mirror of `ExtraFieldsContainer::write_extra_fields`: the bytes emitted for the
given filter, including the fast paths that skip the per-entry walk. -/
def writeExtraFields (c : ExtraFieldsContainer) (filter : Header) :
    Option (List Nat) :=
  if filter = Header.LOCAL ∧ c.local_size = 0 then some []
  else if filter = Header.CENTRAL ∧ c.central_size = 0 then some []
  else if c.local_size = c.central_size ∨ c.local_size = 0 ∨ c.central_size = 0 then
    some c.data_buffer
  else writeFieldsLoop c.entries c.data_buffer filter

/-- Modelled from the spec: `UtcDateTime` / `DosDateTime` live in the crate's
`time` module, which is not under `src/`.  The writer only consumes a UTC
timestamp through `to_unix()` (Unix seconds, `i64`) and
`DosDateTime::from(..).into_parts()` (the packed DOS time and date words), so
the embedding carries those three observations as data. -/
structure UtcDateTime where
  unixSeconds : Int
  dosTime : Nat
  dosDate : Nat
deriving DecidableEq

/-- From `writer.rs`: the options accumulated by `ZipFileBuilder` /
`ZipDirBuilder`.  The compression method is embedded by its numeric id
(`CompressionMethod::as_id`). -/
structure ZipEntryOptions where
  compression_method : Nat
  modification_time : Option UtcDateTime
  unix_permissions : Option Nat
  extra_fields : ExtraFieldsContainer
deriving DecidableEq

/-- The fixed portion of a local file header as constructed in
`ZipArchiveWriter::write_local_header` (the leading 4-byte signature
`0x04034B50` is a constant and is omitted from the record). -/
structure ZipLocalFileHeaderFixed where
  version_needed : Nat
  flags : Nat
  compression_method : Nat
  last_mod_time : Nat
  last_mod_date : Nat
  crc32 : Nat
  compressed_size : Nat
  uncompressed_size : Nat
  file_name_len : Nat
  extra_field_len : Nat
deriving DecidableEq

/-- From `writer.rs`: the per-entry record kept for the central directory. -/
structure FileHeader where
  name_len : Nat
  compression_method : Nat
  local_header_offset : Nat
  compressed_size : Nat
  uncompressed_size : Nat
  crc : Nat
  flags : Nat
  modification_time : Option UtcDateTime
  unix_permissions : Option Nat
  extra_fields : ExtraFieldsContainer
deriving DecidableEq

/-- From `writer.rs`: the state of a `ZipEntryWriter` (the borrow of the archive is
left implicit; `compressed_bytes` counts the bytes written through it). -/
structure ZipEntryWriterState where
  compressed_bytes : Nat
  name_len : Nat
  local_header_offset : Nat
  compression_method : Nat
  flags : Nat
  modification_time : Option UtcDateTime
  unix_permissions : Option Nat
  extra_fields : ExtraFieldsContainer
deriving DecidableEq

/-- From `writer.rs`: `DataDescriptorOutput`. -/
structure DataDescriptorOutput where
  crc : Nat
  compressed_size : Nat
  uncompressed_size : Nat
deriving DecidableEq

/-- The `Write` impl for `ZipEntryWriter`: a successful underlying write of
`bytes_written` bytes bumps `compressed_bytes` by that amount. -/
def ZipEntryWriterState.write (w : ZipEntryWriterState) (bytes_written : Nat) :
    ZipEntryWriterState :=
  { w with compressed_bytes := w.compressed_bytes + bytes_written }

/-- Mirror of `ZipArchiveWriter::write_local_header`.  Path normalization lives in the
crate's `path` module (not under `src/`), so the name enters the function as
its length; the caller supplies the flags and compression id.  Returns the
options (whose extra-field container may have gained the Extended Timestamp
field), the fixed header record, and the emitted local extra-field bytes. -/
def write_local_header (nameLen : Nat) (flags : Nat) (compressionId : Nat)
    (opts : ZipEntryOptions) :
    Except ZipError (ZipEntryOptions × ZipLocalFileHeaderFixed × Option (List Nat)) :=
  let dosParts := match opts.modification_time with
    | some dt => (dt.dosTime, dt.dosDate)
    | none => (0, 0)
  let withTs : Except ZipError ZipEntryOptions :=
    match opts.modification_time with
    | some dt =>
      -- `datetime.to_unix().max(0) as u32`
      let unix_time := (max dt.unixSeconds 0).toNat % 2 ^ 32
      (addField opts.extra_fields 0x5455 ([1] ++ le32 unix_time) Header.CENTRAL).map
        fun ef => { opts with extra_fields := ef }
    | none => .ok opts
  withTs.map fun opts2 =>
    (opts2,
     { version_needed := 20
       flags := flags
       compression_method := compressionId
       last_mod_time := dosParts.1
       last_mod_date := dosParts.2
       crc32 := 0
       compressed_size := 0
       uncompressed_size := 0
       file_name_len := nameLen
       extra_field_len := opts2.extra_fields.local_size },
     writeExtraFields opts2.extra_fields Header.LOCAL)

/-- Mirror of `ZipArchiveWriter::new_file_with_options`.  `count` is the byte offset of
the output writer (the future local header offset); `needsUtf8` stands for
`file_path.needs_utf8_encoding()` of the missing `path` module. -/
def new_file_with_options (count : Nat) (nameBytes : List Nat)
    (needsUtf8 : Bool) (opts : ZipEntryOptions) :
    Except ZipError
      (ZipEntryWriterState × ZipLocalFileHeaderFixed × Option (List Nat)) :=
  if 65535 < nameBytes.length then .error .invalidInput
  else
    let flags : Nat := if needsUtf8 then 8 ||| 0x800 else 8
    (write_local_header nameBytes.length flags opts.compression_method opts).map
      fun r =>
        ({ compressed_bytes := 0
           name_len := nameBytes.length
           local_header_offset := count
           compression_method := opts.compression_method
           flags := flags
           modification_time := r.1.modification_time
           unix_permissions := r.1.unix_permissions
           extra_fields := r.1.extra_fields }, r.2.1, r.2.2)

/-- Mirror of `FileHeader::needs_zip64` (`ZIP64_THRESHOLD_FILE_SIZE` and
`ZIP64_THRESHOLD_OFFSET` are both `u32::MAX = 0xFFFFFFFF`). -/
def FileHeader.needs_zip64 (f : FileHeader) : Bool :=
  decide (0xFFFFFFFF ≤ f.compressed_size) ||
    decide (0xFFFFFFFF ≤ f.uncompressed_size) ||
    decide (0xFFFFFFFF ≤ f.local_header_offset)

/-- The payload of the ZIP64 extra field assembled in
`FileHeader::finalize_extra_fields`: the overflowed `u64` values in the fixed
order uncompressed size, compressed size, local header offset. -/
def zip64ExtraData (f : FileHeader) : List Nat :=
  (if 0xFFFFFFFF ≤ f.uncompressed_size then le64 f.uncompressed_size else []) ++
    (if 0xFFFFFFFF ≤ f.compressed_size then le64 f.compressed_size else []) ++
    (if 0xFFFFFFFF ≤ f.local_header_offset then le64 f.local_header_offset else [])

/-- Mirror of `FileHeader::finalize_extra_fields`. -/
def finalize_extra_fields (f : FileHeader) : Except ZipError FileHeader :=
  if f.needs_zip64 then
    (addField f.extra_fields 0x0001 (zip64ExtraData f) Header.CENTRAL).map
      fun ef => { f with extra_fields := ef }
  else .ok f

/-- Mirror of `ZipEntryWriter::finish`: overwrite the descriptor's compressed size with
the byte count tallied by the writer, emit the data descriptor (returned as
bytes), and produce the central-directory record after
`finalize_extra_fields`. -/
def ZipEntryWriter_finish (w : ZipEntryWriterState) (out0 : DataDescriptorOutput) :
    Except ZipError (List Nat × FileHeader) :=
  let output : DataDescriptorOutput := { out0 with compressed_size := w.compressed_bytes }
  let descriptor :=
    le32 0x08074B50 ++ le32 output.crc ++
      (if 0xFFFFFFFF ≤ output.compressed_size ∨ 0xFFFFFFFF ≤ output.uncompressed_size then
        le64 output.compressed_size ++ le64 output.uncompressed_size
      else
        le32 output.compressed_size ++ le32 output.uncompressed_size)
  let fh : FileHeader :=
    { name_len := w.name_len
      compression_method := w.compression_method
      local_header_offset := w.local_header_offset
      compressed_size := output.compressed_size
      uncompressed_size := output.uncompressed_size
      crc := output.crc
      flags := w.flags
      modification_time := w.modification_time
      unix_permissions := w.unix_permissions
      extra_fields := w.extra_fields }
  (finalize_extra_fields fh).map fun fh2 => (descriptor, fh2)

/-- The 32-bit compressed-size field of the CDH emitted by
`ZipArchiveWriter::finish` (`file.compressed_size.min(0xFFFFFFFF) as u32`). -/
def cdhCompressedField (f : FileHeader) : Nat := min f.compressed_size 0xFFFFFFFF

/-- The 32-bit uncompressed-size field of the CDH emitted by
`ZipArchiveWriter::finish`. -/
def cdhUncompressedField (f : FileHeader) : Nat := min f.uncompressed_size 0xFFFFFFFF

/-- The 32-bit local-header-offset field of the CDH emitted by
`ZipArchiveWriter::finish`. -/
def cdhOffsetField (f : FileHeader) : Nat := min f.local_header_offset 0xFFFFFFFF

/-- From `ZipArchiveWriter::finish`: the archive-level ZIP64 decision
(`needs_zip64`), with `ZIP64_THRESHOLD_ENTRIES = 0xFFFF` and
`ZIP64_THRESHOLD_OFFSET = 0xFFFFFFFF`. -/
def archiveNeedsZip64 (files : List FileHeader) (cd_offset : Nat) : Bool :=
  decide (65535 ≤ files.length) || decide (0xFFFFFFFF ≤ cd_offset) ||
    files.any FileHeader.needs_zip64

/-- The trailer written by `ZipArchiveWriter::finish` after the central
directory: the optional ZIP64 EOCD record (together with its locator, which the
code emits under the same condition) and the fields of the regular EOCD
record.  `cd_size` is the byte length of the central directory just
written. -/
structure EocdInfo where
  zip64 : Option (Nat × Nat × Nat)
  entries_field : Nat
  cd_size_field : Nat
  cd_offset_field : Nat
deriving DecidableEq

/-- The EOCD/ZIP64 trailer of `ZipArchiveWriter::finish`: `zip64` carries
`(total_entries, cd_size, cd_offset)` of the ZIP64 EOCD record when one is
written, and the three remaining fields are the entry count, central-directory
size and offset stored in the regular EOCD record (clamped to their
sentinels). -/
def archiveFinishEocd (files : List FileHeader) (cd_offset cd_size : Nat) :
    EocdInfo :=
  { zip64 := if archiveNeedsZip64 files cd_offset then
      some (files.length, cd_size, cd_offset)
    else none
    entries_field := min files.length 65535
    cd_size_field := min cd_size 0xFFFFFFFF
    cd_offset_field := min cd_offset 0xFFFFFFFF }

/-- From `reader_at.rs`: the loop body of `try_read_at_least_at`, with the
underlying `ReaderAt` abstracted as a function from (remaining buffer length,
absolute offset) to `none` (an I/O error) or `some n` (a read of `n` bytes).
The `while pos < size` loop is embedded with a fuel argument; starting the
fuel at `size` makes the fuel inexhaustible because `pos` grows by at least one
per iteration. -/
def tryLoopAux (read : Nat → Nat → Option Nat) (buflen size offset : Nat) :
    Nat → Nat → Option Nat
  | 0, pos => some pos
  | fuel + 1, pos =>
    if pos < size then
      match read (buflen - pos) (offset + pos) with
      | none => none
      | some 0 => some pos
      | some (n + 1) => tryLoopAux read buflen size offset fuel (pos + (n + 1))
    else some pos

/-- Mirror of `ReaderAtExt::try_read_at_least_at`: clamp `size` to the buffer length and
run the accumulation loop, returning the total bytes read (stopping early on a
zero-length read) or `none` on an underlying I/O error. -/
def try_read_at_least_at (read : Nat → Nat → Option Nat)
    (buflen size offset : Nat) : Option Nat :=
  tryLoopAux read buflen (min size buflen) offset (min size buflen) 0

/-- Mirror of `ReaderAtExt::read_at_least_at`. -/
def read_at_least_at (read : Nat → Nat → Option Nat)
    (buflen size offset : Nat) : Except ZipError Nat :=
  if buflen < size then .error .bufferTooSmall
  else
    match try_read_at_least_at read buflen size offset with
    | none => .error .ioError
    | some r => if r < size then .error .eofError else .ok r

/-! Concrete inputs used by the counterexample and witness theorems below. -/

/-- Data of a six-byte extra field destined for the local header only. -/
def c1_local_data : List Nat := [102, 105, 101, 108, 100, 49]

/-- Data of a six-byte extra field destined for the central directory only. -/
def c1_central_data : List Nat := [102, 105, 101, 108, 100, 50]

/-- Container obtained by adding a LOCAL-only field and a CENTRAL-only field
of equal size to a fresh container, as `ZipFileBuilder::extra_field` does. -/
def c1_container : Except ZipError ExtraFieldsContainer :=
  (addField emptyContainer 0x6666 c1_local_data Header.LOCAL).bind fun c =>
    addField c 0x7777 c1_central_data Header.CENTRAL

/-- The value of `c1_container`, spelled out. -/
def c1_result : ExtraFieldsContainer :=
  { entries := [Header.LOCAL, Header.CENTRAL]
    data_buffer :=
      ([0x66, 0x66] ++ [6, 0] ++ c1_local_data) ++
        ([0x77, 0x77] ++ [6, 0] ++ c1_central_data)
    local_size := 10
    central_size := 10 }

/-- Builder options with no modification time and the Store method. -/
def plainOptions : ZipEntryOptions :=
  { compression_method := 0
    modification_time := none
    unix_permissions := none
    extra_fields := emptyContainer }

/-- Timestamp 2023-06-15T14:30:45Z as the embedding's `UtcDateTime`. -/
def sampleTimestamp : UtcDateTime :=
  { unixSeconds := 1686839445, dosTime := 29709, dosDate := 21711 }

/-- Builder options carrying `sampleTimestamp`. -/
def timedOptions : ZipEntryOptions :=
  { compression_method := 0
    modification_time := some sampleTimestamp
    unix_permissions := none
    extra_fields := emptyContainer }

/-- Entry-writer state of a file created at offset `2^32` (an archive with
four gibibytes of prelude, via `with_offset`) with five bytes written. -/
def c4_state : ZipEntryWriterState :=
  { compressed_bytes := 5
    name_len := 1
    local_header_offset := 2 ^ 32
    compression_method := 0
    flags := 8
    modification_time := none
    unix_permissions := none
    extra_fields := emptyContainer }

/-- Entry-writer state as produced by `new_file_with_options 0 [97] false`. -/
def c10_state : ZipEntryWriterState :=
  { compressed_bytes := 0
    name_len := 1
    local_header_offset := 0
    compression_method := 0
    flags := 8
    modification_time := none
    unix_permissions := none
    extra_fields := emptyContainer }

/-- File-header record with an overflowing uncompressed size and local header
offset exactly at the sentinel, but a small compressed size. -/
def c5_file : FileHeader :=
  { name_len := 1
    compression_method := 0
    local_header_offset := 0xFFFFFFFF
    compressed_size := 3
    uncompressed_size := 2 ^ 32 + 5
    crc := 9
    flags := 8
    modification_time := none
    unix_permissions := none
    extra_fields := emptyContainer }

/-- Reader that always reports end-of-data (every `read_at` returns 0). -/
def emptyReader : Nat → Nat → Option Nat := fun _ _ => some 0

/-- The empty location bitmask, publicly reachable as
`Header::LOCAL & Header::CENTRAL` through the `BitAnd` impl. -/
def c7_empty_location : Header := Header.band Header.LOCAL Header.CENTRAL

/-- Extra-field payload of 65532 bytes, so that `4 + data.len()` alone
exceeds 65535. -/
def c7_oversized : List Nat := List.replicate 65532 0

/-- Local file header produced by `new_file_with_options 0 [97] false
plainOptions`. -/
def c3_header : ZipLocalFileHeaderFixed :=
  { version_needed := 20, flags := 8, compression_method := 0
    last_mod_time := 0, last_mod_date := 0, crc32 := 0, compressed_size := 0
    uncompressed_size := 0, file_name_len := 1, extra_field_len := 0 }

/-- Data descriptor produced by finishing `c4_state` with CRC 7 and
uncompressed size 5. -/
def c4_descriptor : List Nat :=
  [80, 75, 7, 8, 7, 0, 0, 0, 5, 0, 0, 0, 5, 0, 0, 0]

/-- Central-directory record produced by finishing `c4_state` with CRC 7 and
uncompressed size 5 (the ZIP64 extra holds the local header offset). -/
def c4_file : FileHeader :=
  { name_len := 1
    compression_method := 0
    local_header_offset := 2 ^ 32
    compressed_size := 5
    uncompressed_size := 5
    crc := 7
    flags := 8
    modification_time := none
    unix_permissions := none
    extra_fields :=
      { entries := [Header.CENTRAL]
        data_buffer := [1, 0, 8, 0, 0, 0, 0, 0, 1, 0, 0, 0]
        local_size := 0
        central_size := 12 } }

/-- Result of `finalize_extra_fields` on `c5_file`: the ZIP64 extra holds the
uncompressed size and the local header offset, but not the small compressed
size. -/
def c5_finalized : FileHeader :=
  { c5_file with
    extra_fields :=
      { entries := [Header.CENTRAL]
        data_buffer :=
          [1, 0, 16, 0, 5, 0, 0, 0, 1, 0, 0, 0, 255, 255, 255, 255, 0, 0, 0, 0]
        local_size := 0
        central_size := 20 } }

/-- Options produced by `write_local_header 5 8 0 timedOptions`: the container
gained the Extended Timestamp field for the central directory. -/
def c6_opts2 : ZipEntryOptions :=
  { timedOptions with
    extra_fields :=
      { entries := [Header.CENTRAL]
        data_buffer := [85, 84, 5, 0, 1, 149, 32, 139, 100]
        local_size := 0
        central_size := 9 } }

/-- Local file header produced by `write_local_header 5 8 0 timedOptions`. -/
def c6_hdr : ZipLocalFileHeaderFixed :=
  { version_needed := 20, flags := 8, compression_method := 0
    last_mod_time := 29709, last_mod_date := 21711, crc32 := 0
    compressed_size := 0, uncompressed_size := 0, file_name_len := 5
    extra_field_len := 0 }

/-- Data descriptor produced by finishing `c10_state` after writes of 3 and 4
bytes, with CRC 7 and uncompressed size 5. -/
def c10_descriptor : List Nat :=
  [80, 75, 7, 8, 7, 0, 0, 0, 7, 0, 0, 0, 5, 0, 0, 0]

/-- Central-directory record produced by finishing `c10_state` after writes
of 3 and 4 bytes, with CRC 7 and uncompressed size 5. -/
def c10_file : FileHeader :=
  { name_len := 1
    compression_method := 0
    local_header_offset := 0
    compressed_size := 7
    uncompressed_size := 5
    crc := 7
    flags := 8
    modification_time := none
    unix_permissions := none
    extra_fields := emptyContainer }

/-! Shared helper lemmas. -/

lemma except_map_ok {ε α β : Type} {f : α → β} {x : Except ε α} {b : β}
    (h : x.map f = .ok b) : ∃ a, x = .ok a ∧ f a = b := by
  cases x with
  | error e => simp [Except.map] at h
  | ok a => exact ⟨a, rfl, by simpa [Except.map] using h⟩

lemma includes_local_LOCAL : Header.LOCAL.includes_local = true := by decide

lemma includes_central_LOCAL : Header.LOCAL.includes_central = false := by decide

lemma includes_local_CENTRAL : Header.CENTRAL.includes_local = false := by decide

lemma includes_central_CENTRAL : Header.CENTRAL.includes_central = true := by decide

lemma includes_local_both : Header.both.includes_local = true := by decide

lemma includes_central_both : Header.both.includes_central = true := by decide

lemma archiveNeedsZip64_iff (files : List FileHeader) (cd_offset : Nat) :
    archiveNeedsZip64 files cd_offset = true ↔
      65535 ≤ files.length ∨ 0xFFFFFFFF ≤ cd_offset ∨
        ∃ f ∈ files, 0xFFFFFFFF ≤ f.compressed_size ∨
          0xFFFFFFFF ≤ f.uncompressed_size ∨ 0xFFFFFFFF ≤ f.local_header_offset := by
  simp [archiveNeedsZip64, FileHeader.needs_zip64, List.any_eq_true, or_assoc]

lemma finalize_preserves (f f2 : FileHeader)
    (h : finalize_extra_fields f = .ok f2) :
    f2.compressed_size = f.compressed_size ∧
      f2.uncompressed_size = f.uncompressed_size ∧ f2.crc = f.crc := by
  unfold finalize_extra_fields at h
  split at h
  · obtain ⟨ef, -, hb⟩ := except_map_ok h
    subst hb; exact ⟨rfl, rfl, rfl⟩
  · cases h; exact ⟨rfl, rfl, rfl⟩

lemma le_u16_take (l : List Nat) (n : Nat) (hn : 4 ≤ n) :
    le_u16 (l.take n) = le_u16 l := by
  unfold le_u16
  rw [List.getD_eq_getElem?_getD, List.getD_eq_getElem?_getD,
    List.getD_eq_getElem?_getD, List.getD_eq_getElem?_getD,
    List.getElem?_take_of_lt (show 0 < n by omega),
    List.getElem?_take_of_lt (show 1 < n by omega)]

lemma tryLoopAux_stop (read : Nat → Nat → Option Nat)
    (buflen size offset : Nat) :
    ∀ fuel pos r, size ≤ fuel + pos →
      tryLoopAux read buflen size offset fuel pos = some r →
      size ≤ r ∨ (r < size ∧ read (buflen - r) (offset + r) = some 0) := by
  intro fuel
  induction fuel with
  | zero =>
    intro pos r hle h
    simp only [tryLoopAux, Option.some.injEq] at h
    subst h
    left; omega
  | succ n ih =>
    intro pos r hle h
    unfold tryLoopAux at h
    split at h
    · cases hr : read (buflen - pos) (offset + pos) with
      | none => rw [hr] at h; exact Option.noConfusion h
      | some k =>
        rw [hr] at h
        cases k with
        | zero =>
          simp only [Option.some.injEq] at h
          subst h
          right
          exact ⟨by omega, hr⟩
        | succ m => exact ih (pos + (m + 1)) r (by omega) h
    · simp only [Option.some.injEq] at h
      subst h
      left; omega

lemma foldl_write (st : ZipEntryWriterState) (ns : List Nat) :
    (ns.foldl ZipEntryWriterState.write st).compressed_bytes =
      st.compressed_bytes + ns.sum := by
  induction ns generalizing st with
  | nil => simp
  | cons n rest ih =>
    simp only [List.foldl, List.sum_cons, ih, ZipEntryWriterState.write]
    omega

lemma addField_central_ok {c : ExtraFieldsContainer} {id : Nat}
    {data : List Nat} {c2 : ExtraFieldsContainer}
    (h : addField c id data Header.CENTRAL = .ok c2) :
    c2 = { entries := c.entries ++ [Header.CENTRAL]
           data_buffer := c.data_buffer ++ le16 id ++ le16 data.length ++ data
           local_size := c.local_size
           central_size := c.central_size + (4 + data.length) } := by
  unfold addField at h
  simp only [includes_local_CENTRAL, includes_central_CENTRAL,
    Bool.false_eq_true, if_false, if_true, Nat.max_eq_left, Nat.zero_le] at h
  split at h
  · exact absurd h (by simp)
  · simp only [Except.ok.injEq] at h
    subst h
    rfl

/-! Theorems for the claims. -/

/-- C1 (code bug): adding a 6-byte field for the local header only and a
6-byte field for the central directory only makes `local_size` and
`central_size` coincide, so `write_extra_fields` takes its wholesale fast
path and emits the CENTRAL-only TLV into the local file header (and,
symmetrically, the LOCAL-only TLV into the central directory), even though
that TLV's recorded location does not intersect the filter; the per-entry walk
(`write_extra_fields_iter`) of the same container emits only the matching
TLV. -/
theorem c1_equal_size_fast_path_emits_foreign_tlv :
    c1_container = .ok c1_result ∧
    Header.intersects Header.CENTRAL Header.LOCAL = false ∧
    writeExtraFields c1_result Header.LOCAL =
      some (([0x66, 0x66] ++ [6, 0] ++ c1_local_data) ++
        ([0x77, 0x77] ++ [6, 0] ++ c1_central_data)) ∧
    writeFieldsLoop c1_result.entries c1_result.data_buffer Header.LOCAL =
      some ([0x66, 0x66] ++ [6, 0] ++ c1_local_data) := by
  refine ⟨by decide, by decide, by decide, by decide⟩

/-- C2 (counterexample): an archive whose central directory starts at byte
`0xFFFFFFFF` (one less than `2^32`), holding one tiny entry, receives a ZIP64
EOCD record and locator from `finish` although the claim's condition
(entries ≥ 65535, or an offset or size ≥ `2^32`) is false. -/
theorem c2_cex_sentinel_offset_already_zip64 :
    (archiveFinishEocd [] 0xFFFFFFFF 0).zip64.isSome = true ∧
    ¬ (65535 ≤ ([] : List FileHeader).length ∨ 2 ^ 32 ≤ 0xFFFFFFFF ∨
        ∃ f ∈ ([] : List FileHeader), 2 ^ 32 ≤ f.compressed_size ∨
          2 ^ 32 ≤ f.uncompressed_size ∨ 2 ^ 32 ≤ f.local_header_offset) := by
  refine ⟨by decide, by decide⟩

/-- C2 (amended): `finish` writes the ZIP64 EOCD record and locator exactly
when the entry count reaches 65535, or the central-directory start offset
reaches `0xFFFFFFFF`, or some entry's compressed size, uncompressed size or
local header offset reaches `0xFFFFFFFF`; and each field of the regular EOCD
record carries its sentinel (`0xFFFF` for the entry counts, `0xFFFFFFFF` for
the central-directory size and offset) exactly when the true value is at least
that sentinel. -/
theorem c2_zip64_trailer (files : List FileHeader) (cd_offset cd_size : Nat) :
    ((archiveFinishEocd files cd_offset cd_size).zip64.isSome = true ↔
      65535 ≤ files.length ∨ 0xFFFFFFFF ≤ cd_offset ∨
        ∃ f ∈ files, 0xFFFFFFFF ≤ f.compressed_size ∨
          0xFFFFFFFF ≤ f.uncompressed_size ∨ 0xFFFFFFFF ≤ f.local_header_offset) ∧
    ((archiveFinishEocd files cd_offset cd_size).entries_field = 0xFFFF ↔
      65535 ≤ files.length) ∧
    ((archiveFinishEocd files cd_offset cd_size).cd_size_field = 0xFFFFFFFF ↔
      0xFFFFFFFF ≤ cd_size) ∧
    ((archiveFinishEocd files cd_offset cd_size).cd_offset_field = 0xFFFFFFFF ↔
      0xFFFFFFFF ≤ cd_offset) := by
  refine ⟨?_, ?_, ?_, ?_⟩
  · rw [← archiveNeedsZip64_iff files cd_offset]
    unfold archiveFinishEocd
    by_cases hb : archiveNeedsZip64 files cd_offset = true <;> simp [hb]
  · unfold archiveFinishEocd; simp only; omega
  · unfold archiveFinishEocd; simp only; omega
  · unfold archiveFinishEocd; simp only; omega

/-- C2 (witness): the amended biconditionals evaluated on a one-entry archive
whose sole file sits below every threshold while the central directory starts
at the sentinel offset. -/
theorem c2_zip64_trailer_witness :
    ((archiveFinishEocd [] 0xFFFFFFFF 46).zip64.isSome = true ↔
      65535 ≤ ([] : List FileHeader).length ∨ 0xFFFFFFFF ≤ 0xFFFFFFFF ∨
        ∃ f ∈ ([] : List FileHeader), 0xFFFFFFFF ≤ f.compressed_size ∨
          0xFFFFFFFF ≤ f.uncompressed_size ∨ 0xFFFFFFFF ≤ f.local_header_offset) ∧
    ((archiveFinishEocd [] 0xFFFFFFFF 46).entries_field = 0xFFFF ↔
      65535 ≤ ([] : List FileHeader).length) ∧
    ((archiveFinishEocd [] 0xFFFFFFFF 46).cd_size_field = 0xFFFFFFFF ↔
      0xFFFFFFFF ≤ 46) ∧
    ((archiveFinishEocd [] 0xFFFFFFFF 46).cd_offset_field = 0xFFFFFFFF ↔
      0xFFFFFFFF ≤ 0xFFFFFFFF) :=
  c2_zip64_trailer [] 0xFFFFFFFF 46

lemma write_local_header_ok {nameLen flags cm : Nat} {opts : ZipEntryOptions}
    {o2 : ZipEntryOptions} {hdr : ZipLocalFileHeaderFixed}
    {extras : Option (List Nat)}
    (h : write_local_header nameLen flags cm opts = .ok (o2, hdr, extras)) :
    hdr.version_needed = 20 ∧ hdr.flags = flags ∧ hdr.crc32 = 0 ∧
      hdr.compressed_size = 0 ∧ hdr.uncompressed_size = 0 ∧
      hdr.file_name_len = nameLen ∧
      hdr.extra_field_len = o2.extra_fields.local_size ∧
      extras = writeExtraFields o2.extra_fields Header.LOCAL := by
  cases hm : opts.modification_time with
  | none =>
    simp only [write_local_header, hm, Except.map, Except.ok.injEq,
      Prod.mk.injEq] at h
    obtain ⟨h1, h2, h3⟩ := h
    subst h1; subst h2; subst h3
    simp_all
  | some dt =>
    simp only [write_local_header, hm] at h
    obtain ⟨a, hY, hb⟩ := except_map_ok h
    simp only [Prod.mk.injEq] at hb
    obtain ⟨h1, h2, h3⟩ := hb
    subst h1; subst h2; subst h3
    simp_all

/-- C3 (counterexample): a file created at offset `2^32` (reachable with
`with_offset`) is an entry that will require ZIP64 — finishing it yields a
central-directory record with `needs_zip64 = true` — yet the local file header
emitted by `create` carries `version_needed = 20`, not 45. -/
theorem c3_cex_zip64_entry_gets_version_20 :
    ((new_file_with_options (2 ^ 32) [97] false plainOptions).map
        fun r => r.2.1.version_needed) = .ok 20 ∧
    ((new_file_with_options (2 ^ 32) [97] false plainOptions).bind
        fun r => (ZipEntryWriter_finish r.1 ⟨0, 0, 0⟩).map
          fun p => p.2.needs_zip64) = .ok true ∧
    (20 : Nat) ≠ 45 := by
  refine ⟨by decide, by decide, by decide⟩

/-- C3 (amended): for every file entry, `create` emits a local file header
whose `version_needed` field is always 20 — also for entries that will require
ZIP64 (45 appears only in the central directory header) — whose
general-purpose flag has bit 3 (data descriptor) set, and whose CRC,
compressed size and uncompressed size fields are 0. -/
theorem c3_local_header_fields (count : Nat) (nameBytes : List Nat)
    (needsUtf8 : Bool) (opts : ZipEntryOptions) (st : ZipEntryWriterState)
    (hdr : ZipLocalFileHeaderFixed) (extras : Option (List Nat))
    (h : new_file_with_options count nameBytes needsUtf8 opts =
      .ok (st, hdr, extras)) :
    hdr.version_needed = 20 ∧ Nat.testBit hdr.flags 3 = true ∧
      hdr.crc32 = 0 ∧ hdr.compressed_size = 0 ∧ hdr.uncompressed_size = 0 := by
  unfold new_file_with_options at h
  split at h
  · exact absurd h (by simp)
  · obtain ⟨⟨o2, hdr0, ex0⟩, hw, hb⟩ := except_map_ok h
    simp only [Prod.mk.injEq] at hb
    obtain ⟨h1, h2, h3⟩ := hb
    subst h2; subst h3
    obtain ⟨v20, hfl, hcrc, hcs, hus, -, -, -⟩ := write_local_header_ok hw
    refine ⟨v20, ?_, hcrc, hcs, hus⟩
    rw [hfl]
    cases needsUtf8 <;> decide

/-- C3 (witness): the amended statement evaluated for a one-byte ASCII name
at offset 0 with default options. -/
theorem c3_local_header_fields_witness :
    c3_header.version_needed = 20 ∧ Nat.testBit c3_header.flags 3 = true ∧
      c3_header.crc32 = 0 ∧ c3_header.compressed_size = 0 ∧
      c3_header.uncompressed_size = 0 :=
  c3_local_header_fields 0 [97] false plainOptions c10_state c3_header
    (some []) (by decide)

/-- C4 (counterexample): finishing an entry whose local header offset is
`2^32` (so the entry is ZIP64-tagged: its central-directory record reports
`needs_zip64 = true`) with small sizes produces a 16-byte data descriptor —
4-byte size fields — where the claim requires the 8-byte form (24 bytes). -/
theorem c4_cex_tagged_entry_gets_4byte_sizes :
    ((ZipEntryWriter_finish c4_state ⟨7, 0, 5⟩).map
        fun p => (p.1.length, p.2.needs_zip64)) = .ok (16, true) ∧
    (16 : Nat) ≠ 24 := by
  refine ⟨by decide, by decide⟩

/-- C4 (amended): `finish` always writes a data descriptor beginning with the
signature `0x08074B50` and the CRC, and it uses 8-byte compressed/uncompressed
size fields exactly when either the tallied compressed byte count or the
supplied uncompressed size is at least `0xFFFFFFFF`, and 4-byte size fields
otherwise — the entry's ZIP64 tagging (for example through its local header
offset) does not influence the descriptor width. -/
theorem c4_data_descriptor (w : ZipEntryWriterState) (out : DataDescriptorOutput)
    (d : List Nat) (fh : FileHeader)
    (h : ZipEntryWriter_finish w out = .ok (d, fh)) :
    d.take 4 = le32 0x08074B50 ∧ (d.drop 4).take 4 = le32 out.crc ∧
      ((0xFFFFFFFF ≤ w.compressed_bytes ∨ 0xFFFFFFFF ≤ out.uncompressed_size) →
        d = le32 0x08074B50 ++ le32 out.crc ++
          le64 w.compressed_bytes ++ le64 out.uncompressed_size ∧ d.length = 24) ∧
      ((w.compressed_bytes < 0xFFFFFFFF ∧ out.uncompressed_size < 0xFFFFFFFF) →
        d = le32 0x08074B50 ++ le32 out.crc ++
          le32 w.compressed_bytes ++ le32 out.uncompressed_size ∧ d.length = 16) := by
  unfold ZipEntryWriter_finish at h
  obtain ⟨fh1, hfin, hb⟩ := except_map_ok h
  simp only [Prod.mk.injEq] at hb
  obtain ⟨hd, hfh⟩ := hb
  subst hfh
  by_cases hc : 0xFFFFFFFF ≤ w.compressed_bytes ∨ 0xFFFFFFFF ≤ out.uncompressed_size
  · rw [if_pos hc] at hd
    subst hd
    refine ⟨?_, ?_, fun _ => ⟨by simp, ?_⟩, fun hlt => absurd hc (by omega)⟩
    · simp [le32, le64]
    · simp [le32, le64]
    · simp [le32, le64]
  · rw [if_neg hc] at hd
    subst hd
    refine ⟨?_, ?_, fun hge => absurd hge hc, fun _ => ⟨by simp, ?_⟩⟩
    · simp [le32]
    · simp [le32]
    · simp [le32]

/-- C4 (witness): the amended statement evaluated on the ZIP64-tagged entry
of the counterexample (5 bytes written, CRC 7, uncompressed size 5). -/
theorem c4_data_descriptor_witness :
    c4_descriptor.take 4 = le32 0x08074B50 ∧
      (c4_descriptor.drop 4).take 4 = le32 7 ∧
      ((0xFFFFFFFF ≤ (5 : Nat) ∨ 0xFFFFFFFF ≤ (5 : Nat)) →
        c4_descriptor = le32 0x08074B50 ++ le32 7 ++ le64 5 ++ le64 5 ∧
          c4_descriptor.length = 24) ∧
      (((5 : Nat) < 0xFFFFFFFF ∧ (5 : Nat) < 0xFFFFFFFF) →
        c4_descriptor = le32 0x08074B50 ++ le32 7 ++ le32 5 ++ le32 5 ∧
          c4_descriptor.length = 16) :=
  c4_data_descriptor c4_state ⟨7, 0, 5⟩ c4_descriptor c4_file (by decide)

/-- C5 (confirmed): the ZIP64 extra field appended by
`finalize_extra_fields` to a ZIP64 entry's central-directory extras carries id
`0x0001`, is routed to the central directory, and its payload consists of
exactly the `u64` values whose 32-bit CDH counterparts carry the overflow
sentinel, in the fixed order uncompressed size, compressed size, local header
offset, with nothing else. -/
theorem c5_zip64_extra (f f2 : FileHeader) (hz : f.needs_zip64 = true)
    (h : finalize_extra_fields f = .ok f2) :
    f2.extra_fields.entries = f.extra_fields.entries ++ [Header.CENTRAL] ∧
      f2.extra_fields.data_buffer =
        f.extra_fields.data_buffer ++ le16 0x0001 ++
          le16 (zip64ExtraData f).length ++ zip64ExtraData f ∧
      zip64ExtraData f =
        (if cdhUncompressedField f = 0xFFFFFFFF then le64 f.uncompressed_size
          else []) ++
          (if cdhCompressedField f = 0xFFFFFFFF then le64 f.compressed_size
            else []) ++
          (if cdhOffsetField f = 0xFFFFFFFF then le64 f.local_header_offset
            else []) := by
  have h3 : zip64ExtraData f =
      (if cdhUncompressedField f = 0xFFFFFFFF then le64 f.uncompressed_size
        else []) ++
        (if cdhCompressedField f = 0xFFFFFFFF then le64 f.compressed_size
          else []) ++
        (if cdhOffsetField f = 0xFFFFFFFF then le64 f.local_header_offset
          else []) := by
    unfold zip64ExtraData cdhUncompressedField cdhCompressedField cdhOffsetField
    have e1 : (min f.uncompressed_size 0xFFFFFFFF = 0xFFFFFFFF) =
        (0xFFFFFFFF ≤ f.uncompressed_size) := propext (by omega)
    have e2 : (min f.compressed_size 0xFFFFFFFF = 0xFFFFFFFF) =
        (0xFFFFFFFF ≤ f.compressed_size) := propext (by omega)
    have e3 : (min f.local_header_offset 0xFFFFFFFF = 0xFFFFFFFF) =
        (0xFFFFFFFF ≤ f.local_header_offset) := propext (by omega)
    simp only [e1, e2, e3]
  refine ⟨?_, ?_, h3⟩ <;>
  · unfold finalize_extra_fields at h
    rw [if_pos hz] at h
    obtain ⟨ef, hadd, hb⟩ := except_map_ok h
    subst hb
    have he := addField_central_ok hadd
    subst he
    rfl

/-- C5 (witness): finalizing a record whose uncompressed size is `2^32 + 5`
and whose local header offset is `0xFFFFFFFF` (compressed size 3) appends the
16-byte ZIP64 extra holding exactly those two values. -/
theorem c5_zip64_extra_witness :
    c5_finalized.extra_fields.entries =
        c5_file.extra_fields.entries ++ [Header.CENTRAL] ∧
      c5_finalized.extra_fields.data_buffer =
        c5_file.extra_fields.data_buffer ++ le16 0x0001 ++
          le16 (zip64ExtraData c5_file).length ++ zip64ExtraData c5_file ∧
      zip64ExtraData c5_file =
        (if cdhUncompressedField c5_file = 0xFFFFFFFF then
          le64 c5_file.uncompressed_size else []) ++
          (if cdhCompressedField c5_file = 0xFFFFFFFF then
            le64 c5_file.compressed_size else []) ++
          (if cdhOffsetField c5_file = 0xFFFFFFFF then
            le64 c5_file.local_header_offset else []) :=
  c5_zip64_extra c5_file c5_finalized (by decide) (by decide)

/-- C6 (confirmed): whenever the entry options carry a modification time,
`write_local_header` adds exactly one Extended Timestamp extra field — id
`0x5455`, TLV bytes `[0x55, 0x54, 5, 0]` followed by the flags byte `0x01` and
the 32-bit little-endian Unix time — routed to the central directory only
(the local size is unchanged, the central size grows by 9), and this happens
before the local file header is emitted: the header's `extra_field_len` and
the emitted local extras are computed from the already-updated container. -/
theorem c6_extended_timestamp (nameLen flagsArg cm : Nat)
    (opts : ZipEntryOptions) (dt : UtcDateTime)
    (hm : opts.modification_time = some dt)
    (o2 : ZipEntryOptions) (hdr : ZipLocalFileHeaderFixed)
    (extras : Option (List Nat))
    (h : write_local_header nameLen flagsArg cm opts = .ok (o2, hdr, extras)) :
    o2.extra_fields.entries = opts.extra_fields.entries ++ [Header.CENTRAL] ∧
      o2.extra_fields.data_buffer = opts.extra_fields.data_buffer ++
        [0x55, 0x54, 5, 0, 1] ++ le32 ((max dt.unixSeconds 0).toNat % 2 ^ 32) ∧
      o2.extra_fields.local_size = opts.extra_fields.local_size ∧
      o2.extra_fields.central_size = opts.extra_fields.central_size + 9 ∧
      hdr.extra_field_len = o2.extra_fields.local_size ∧
      extras = writeExtraFields o2.extra_fields Header.LOCAL := by
  simp only [write_local_header, hm] at h
  obtain ⟨a, hY, hb⟩ := except_map_ok h
  simp only [Prod.mk.injEq] at hb
  obtain ⟨h1, h2, h3⟩ := hb
  subst h1; subst h2; subst h3
  obtain ⟨ef, hadd, hb2⟩ := except_map_ok hY
  subst hb2
  have he := addField_central_ok hadd
  subst he
  refine ⟨rfl, ?_, rfl, ?_, rfl, rfl⟩
  · simp [le16, le32, List.append_assoc]
  · simp [le32]

/-- C6 (witness): writing the local header for options carrying the UTC time
2023-06-15T14:30:45Z (Unix 1686839445) adds the 9-byte Extended Timestamp TLV
`[0x55, 0x54, 5, 0, 1, 149, 32, 139, 100]` to the central extras. -/
theorem c6_extended_timestamp_witness :
    c6_opts2.extra_fields.entries =
        timedOptions.extra_fields.entries ++ [Header.CENTRAL] ∧
      c6_opts2.extra_fields.data_buffer = timedOptions.extra_fields.data_buffer ++
        [0x55, 0x54, 5, 0, 1] ++
          le32 ((max sampleTimestamp.unixSeconds 0).toNat % 2 ^ 32) ∧
      c6_opts2.extra_fields.local_size = timedOptions.extra_fields.local_size ∧
      c6_opts2.extra_fields.central_size =
        timedOptions.extra_fields.central_size + 9 ∧
      c6_hdr.extra_field_len = c6_opts2.extra_fields.local_size ∧
      (some [] : Option (List Nat)) =
        writeExtraFields c6_opts2.extra_fields Header.LOCAL :=
  c6_extended_timestamp 5 8 0 timedOptions sampleTimestamp (by decide)
    c6_opts2 c6_hdr (some []) (by decide)

/-- C7 (counterexample): `Header::LOCAL & Header::CENTRAL` is the publicly
reachable empty location bitmask, which includes neither header, yet
`add_field` with a 65532-byte payload still returns `InvalidInput` — the
claim's condition ("4 + data.len() on top of the running total of some
location included in `location` would exceed 65535") is false there, since no
location is included. -/
theorem c7_cex_empty_location_invalid_input :
    addField emptyContainer 0x6666 c7_oversized c7_empty_location =
      .error .invalidInput ∧
    c7_empty_location.includes_local = false ∧
    c7_empty_location.includes_central = false ∧
    ¬ ((c7_empty_location.includes_local = true ∧
          65535 < 4 + c7_oversized.length + emptyContainer.local_size) ∨
        (c7_empty_location.includes_central = true ∧
          65535 < 4 + c7_oversized.length + emptyContainer.central_size)) := by
  have h0l : c7_empty_location.includes_local = false := by decide
  have h0c : c7_empty_location.includes_central = false := by decide
  have hlen : c7_oversized.length = 65532 := by
    unfold c7_oversized
    rw [List.length_replicate]
  refine ⟨?_, h0l, h0c, ?_⟩
  · unfold addField
    simp only [h0l, h0c, Bool.false_eq_true, if_false]
    rw [if_pos (by omega)]
  · simp [h0l, h0c]

/-- C7 (amended): for every location bitmask, `add_field` fails with
`InvalidInput` exactly when `4 + data.len()` on top of the running byte total
of some location included in the requested location would exceed 65535, or —
when the bitmask includes neither header — when `4 + data.len()` alone
exceeds 65535; on success it appends the TLV to the shared buffer, records
the location, and bumps the local and/or central byte totals accordingly,
leaving the previously stored TLVs unchanged. -/
theorem c7_add_field (c : ExtraFieldsContainer) (id : Nat) (data : List Nat)
    (loc : Header) :
    (addField c id data loc = .error .invalidInput ↔
      (loc.includes_local = true ∧ 65535 < 4 + data.length + c.local_size) ∨
        (loc.includes_central = true ∧ 65535 < 4 + data.length + c.central_size) ∨
        (loc.includes_local = false ∧ loc.includes_central = false ∧
          65535 < 4 + data.length)) ∧
    ∀ c2, addField c id data loc = .ok c2 →
      c2.data_buffer = c.data_buffer ++ le16 id ++ le16 data.length ++ data ∧
        c2.entries = c.entries ++ [loc] ∧
        c2.local_size = c.local_size +
          (if loc.includes_local then 4 + data.length else 0) ∧
        c2.central_size = c.central_size +
          (if loc.includes_central then 4 + data.length else 0) := by
  constructor
  · unfold addField
    cases hl : loc.includes_local <;> cases hc : loc.includes_central <;>
      simp only [hl, hc, Bool.false_eq_true, if_false, if_true,
        Nat.max_eq_left, Nat.zero_le] <;>
      split_ifs with hcond <;> simp_all <;> omega
  · intro c2 hc2
    unfold addField at hc2
    cases hl : loc.includes_local <;> cases hc : loc.includes_central <;>
      simp only [hl, hc, Bool.false_eq_true, if_false, if_true,
        Nat.max_eq_left, Nat.zero_le] at hc2 ⊢ <;>
      split at hc2 <;>
      first
        | exact Except.noConfusion hc2
        | (simp only [Except.ok.injEq] at hc2
           subst hc2
           exact ⟨by simp, rfl, rfl, rfl⟩)

/-- C7 (witness): adding a two-byte field for the local header to a fresh
container succeeds and the postconditions hold. -/
theorem c7_add_field_witness :
    (addField emptyContainer 0x6666 [1, 2] Header.LOCAL = .error .invalidInput ↔
      (Header.LOCAL.includes_local = true ∧
          65535 < 4 + ([1, 2] : List Nat).length + emptyContainer.local_size) ∨
        (Header.LOCAL.includes_central = true ∧
          65535 < 4 + ([1, 2] : List Nat).length + emptyContainer.central_size) ∨
        (Header.LOCAL.includes_local = false ∧
          Header.LOCAL.includes_central = false ∧
          65535 < 4 + ([1, 2] : List Nat).length)) ∧
    ∀ c2, addField emptyContainer 0x6666 [1, 2] Header.LOCAL = .ok c2 →
      c2.data_buffer = emptyContainer.data_buffer ++ le16 0x6666 ++
          le16 ([1, 2] : List Nat).length ++ [1, 2] ∧
        c2.entries = emptyContainer.entries ++ [Header.LOCAL] ∧
        c2.local_size = emptyContainer.local_size +
          (if Header.LOCAL.includes_local then 4 + ([1, 2] : List Nat).length
            else 0) ∧
        c2.central_size = emptyContainer.central_size +
          (if Header.LOCAL.includes_central then 4 + ([1, 2] : List Nat).length
            else 0) :=
  c7_add_field emptyContainer 0x6666 [1, 2] Header.LOCAL

/-- C8 (confirmed): `read_at_least_at` returns `BufferTooSmall` whenever the
buffer is shorter than the requested minimum — for every underlying reader,
i.e. without consulting `read_at`; any `Ok` result is at least the minimum;
and with an adequate buffer it returns `Eof` exactly when the read loop
stopped at a position short of the minimum because the underlying `read_at`
returned a zero-length read there. -/
theorem c8_read_at_least_at (read : Nat → Nat → Option Nat)
    (buflen size offset : Nat) :
    (buflen < size → ∀ read2 : Nat → Nat → Option Nat,
      read_at_least_at read2 buflen size offset = .error .bufferTooSmall) ∧
    (∀ r, read_at_least_at read buflen size offset = .ok r → size ≤ r) ∧
    (size ≤ buflen →
      (read_at_least_at read buflen size offset = .error .eofError ↔
        ∃ p, tryLoopAux read buflen size offset size 0 = some p ∧ p < size ∧
          read (buflen - p) (offset + p) = some 0)) := by
  refine ⟨fun hlt read2 => ?_, fun r hok => ?_, fun hsz => ?_⟩
  · unfold read_at_least_at
    rw [if_pos hlt]
  · unfold read_at_least_at at hok
    split at hok
    · exact Except.noConfusion hok
    · split at hok
      · exact Except.noConfusion hok
      · split at hok
        · exact Except.noConfusion hok
        · rename_i hge
          obtain rfl := Except.ok.inj hok
          omega
  · have hmin : min size buflen = size := Nat.min_eq_left hsz
    constructor
    · intro he
      unfold read_at_least_at try_read_at_least_at at he
      rw [if_neg (by omega), hmin] at he
      cases htr : tryLoopAux read buflen size offset size 0 with
      | none => rw [htr] at he; simp at he
      | some q =>
        rw [htr] at he
        by_cases hq : q < size
        · rcases tryLoopAux_stop read buflen size offset size 0 q (by omega)
            htr with hge | ⟨hql, hzero⟩
          · omega
          · exact ⟨q, rfl, hql, hzero⟩
        · simp [hq] at he
    · rintro ⟨p, hp, hplt, -⟩
      unfold read_at_least_at try_read_at_least_at
      rw [if_neg (by omega), hmin, hp]
      simp [hplt]

/-- C8 (witness): against a reader that immediately reports end-of-data,
requesting at least 4 bytes into a 10-byte buffer yields `Eof`. -/
theorem c8_read_at_least_at_witness :
    read_at_least_at emptyReader 10 4 0 = .error .eofError :=
  ((c8_read_at_least_at emptyReader 10 4 0).2.2 (by omega)).mpr
    ⟨0, by decide, by decide, rfl⟩

/-- C9 (confirmed): a step of the `ExtraFields` iterator yields a TLV exactly
when at least `4 + declared-length` bytes remain (which subsumes the four
header bytes): on success it returns the id decoded from the first two bytes
and a body of exactly the declared length, consuming exactly `4 + length`
bytes off the front; otherwise it yields nothing and the iterator's slice —
what `remaining_bytes` returns — is unchanged. -/
theorem c9_extra_fields_iterator (data : List Nat) (sz : Nat)
    (hsz : sz = le_u16 (data.drop 2)) :
    (4 + sz ≤ data.length →
      extraFieldsStep data =
        (some (le_u16 data, (data.take (4 + sz)).drop 4), data.drop (4 + sz)) ∧
        ((data.take (4 + sz)).drop 4).length = sz ∧
        (data.take (4 + sz)).length = 4 + sz ∧
        data.take (4 + sz) ++ data.drop (4 + sz) = data) ∧
    (data.length < 4 + sz → extraFieldsStep data = (none, data)) := by
  subst hsz
  constructor
  · intro h
    have h4 : ¬ data.length < 4 := by omega
    have hT2 : ¬ data.length < le_u16 (data.drop 2) + 4 := by omega
    have hc : le_u16 (data.drop 2) + 4 = 4 + le_u16 (data.drop 2) := by omega
    refine ⟨?_, ?_, ?_, List.take_append_drop _ _⟩
    · simp only [extraFieldsStep, nextData, h4, hT2, if_false]
      rw [hc, le_u16_take data (4 + le_u16 (data.drop 2)) (by omega)]
    · simp only [List.length_drop, List.length_take]
      omega
    · simp only [List.length_take]
      omega
  · intro hlt
    unfold extraFieldsStep nextData
    by_cases h4 : data.length < 4
    · rw [if_pos h4]
    · rw [if_neg h4]
      simp only
      rw [if_pos (by omega)]

/-- C9 (witness): the iterator step on the Extended Timestamp TLV followed by
a truncated trailer yields the TLV and then stops, leaving the trailer as the
remaining bytes. -/
theorem c9_extra_fields_iterator_witness :
    (4 + 1 ≤ ([0x55, 0x54, 1, 0, 0xFF, 1, 0, 5] : List Nat).length →
      extraFieldsStep [0x55, 0x54, 1, 0, 0xFF, 1, 0, 5] =
        (some (le_u16 [0x55, 0x54, 1, 0, 0xFF, 1, 0, 5],
          (([0x55, 0x54, 1, 0, 0xFF, 1, 0, 5] : List Nat).take (4 + 1)).drop 4),
         ([0x55, 0x54, 1, 0, 0xFF, 1, 0, 5] : List Nat).drop (4 + 1)) ∧
        ((([0x55, 0x54, 1, 0, 0xFF, 1, 0, 5] : List Nat).take (4 + 1)).drop 4).length = 1 ∧
        (([0x55, 0x54, 1, 0, 0xFF, 1, 0, 5] : List Nat).take (4 + 1)).length = 4 + 1 ∧
        ([0x55, 0x54, 1, 0, 0xFF, 1, 0, 5] : List Nat).take (4 + 1) ++
          ([0x55, 0x54, 1, 0, 0xFF, 1, 0, 5] : List Nat).drop (4 + 1) =
            [0x55, 0x54, 1, 0, 0xFF, 1, 0, 5]) ∧
    (([0x55, 0x54, 1, 0, 0xFF, 1, 0, 5] : List Nat).length < 4 + 1 →
      extraFieldsStep [0x55, 0x54, 1, 0, 0xFF, 1, 0, 5] =
        (none, [0x55, 0x54, 1, 0, 0xFF, 1, 0, 5])) :=
  c9_extra_fields_iterator [0x55, 0x54, 1, 0, 0xFF, 1, 0, 5] 1 (by decide)

/-- C10 (confirmed): finishing an entry writer that tallied the written byte
counts `ns` records `ns.sum` as the compressed size in both the data
descriptor and the central-directory record — the `compressed_size` carried by
the supplied `DataDescriptorOutput` is overwritten and has no effect on the
result — while the recorded CRC and uncompressed size are exactly those of the
supplied `DataDescriptorOutput`. -/
theorem c10_finish_sizes (st : ZipEntryWriterState) (ns : List Nat)
    (out : DataDescriptorOutput) (d : List Nat) (fh : FileHeader)
    (hst : st.compressed_bytes = 0)
    (h : ZipEntryWriter_finish (ns.foldl ZipEntryWriterState.write st) out =
      .ok (d, fh)) :
    fh.compressed_size = ns.sum ∧ fh.crc = out.crc ∧
      fh.uncompressed_size = out.uncompressed_size ∧
      d = le32 0x08074B50 ++ le32 out.crc ++
        (if 0xFFFFFFFF ≤ ns.sum ∨ 0xFFFFFFFF ≤ out.uncompressed_size then
          le64 ns.sum ++ le64 out.uncompressed_size
        else le32 ns.sum ++ le32 out.uncompressed_size) ∧
      ∀ x, ZipEntryWriter_finish (ns.foldl ZipEntryWriterState.write st)
          { out with compressed_size := x } = .ok (d, fh) := by
  have hW : (ns.foldl ZipEntryWriterState.write st).compressed_bytes = ns.sum := by
    rw [foldl_write, hst, Nat.zero_add]
  refine ⟨?_, ?_, ?_, ?_, fun x => h⟩ <;>
  · unfold ZipEntryWriter_finish at h
    obtain ⟨fh2, hfin, hb⟩ := except_map_ok h
    simp only [Prod.mk.injEq] at hb
    obtain ⟨hd, hfh⟩ := hb
    subst hfh
    obtain ⟨hcs, hus, hcrc⟩ := finalize_preserves _ _ hfin
    first
      | (rw [hcs]; exact hW)
      | exact hus
      | exact hcrc
      | (subst hd; rw [hW])

/-- C10 (witness): writes of 3 then 4 bytes finished with a descriptor
carrying CRC 7, a stale compressed size of 999 and uncompressed size 5 record
compressed size 7 everywhere, and any stale compressed size gives the same
bytes. -/
theorem c10_finish_sizes_witness :
    c10_file.compressed_size = ([3, 4] : List Nat).sum ∧ c10_file.crc = 7 ∧
      c10_file.uncompressed_size = 5 ∧
      c10_descriptor = le32 0x08074B50 ++ le32 7 ++
        (if 0xFFFFFFFF ≤ ([3, 4] : List Nat).sum ∨ 0xFFFFFFFF ≤ (5 : Nat) then
          le64 ([3, 4] : List Nat).sum ++ le64 5
        else le32 ([3, 4] : List Nat).sum ++ le32 5) ∧
      ∀ x, ZipEntryWriter_finish
          (([3, 4] : List Nat).foldl ZipEntryWriterState.write c10_state)
          ⟨7, x, 5⟩ = .ok (c10_descriptor, c10_file) :=
  c10_finish_sizes c10_state [3, 4] ⟨7, 999, 5⟩ c10_descriptor c10_file rfl
    (by decide)

end Rawzip
